import Mathlib

/-!
Formal model of the job-tracker CRUD routes (`src/backend/src/routes/jobTracker.js`).

The in-memory `Map` store is modelled as an association list in insertion order,
with `set`, `get` and `delete` following JavaScript `Map` semantics (a `set` on an
existing key overwrites in place; a fresh key is appended at the end).

Request-body fields are modelled as `Option String`, where `none` stands for an
absent (`undefined`) field and `some ""` for an explicitly supplied empty string;
JS truthiness (`undefined` and `""` are both falsy) is captured by `truthy`/`jsOr`.
ISO-8601 timestamps are modelled as natural numbers ordered as the dates are.
-/

/-- A note entry appended by the update handler: `{text, createdAt}`. -/
structure Note where
  text : String
  createdAt : Nat
deriving Repr, DecidableEq

/-- A tracked-job record as stored in `jobTrackerStore`. -/
structure TrackedJob where
  userId : String
  jobId : String
  title : String
  company : String
  location : String
  jobType : String
  salary : Option String
  applyLink : Option String
  description : Option String
  status : String
  notes : List Note
  createdAt : Nat
  updatedAt : Nat
deriving Repr, DecidableEq

/-- The in-memory store (`jobTrackerStore`): a JS `Map` as an insertion-ordered
association list from tracker id to record. -/
abbrev Store := List (String × TrackedJob)

/-- `Map.get`: the record stored under a tracker id, if any. -/
def Store.find : Store → String → Option TrackedJob
  | [], _ => none
  | p :: rest, id => if p.1 = id then some p.2 else Store.find rest id

/-- `Map.set`: overwrite in place when the key is present, else append at the end. -/
def Store.set : Store → String → TrackedJob → Store
  | [], id, j => [(id, j)]
  | p :: rest, id, j => if p.1 = id then (id, j) :: rest else p :: Store.set rest id j

/-- `Map.delete`: remove the entry stored under the key. -/
def Store.del : Store → String → Store
  | [], _ => []
  | p :: rest, id => if p.1 = id then rest else p :: Store.del rest id

/-- JS `v || d` for an optional string: `undefined` and `""` are falsy. -/
def jsOr (v : Option String) (d : String) : String :=
  match v with
  | none => d
  | some s => if s = "" then d else s

/-- JS `v || null`: an absent or empty value collapses to `null`. -/
def jsOrNull (v : Option String) : Option String :=
  match v with
  | none => none
  | some s => if s = "" then none else some s

/-- JS truthiness of an optional string request field. -/
def truthy (v : Option String) : Prop :=
  v ≠ none ∧ v ≠ some ""

instance (v : Option String) : Decidable (truthy v) := by
  unfold truthy
  infer_instance

/-- The five enumerated status values (`validStatuses` in the update handler). -/
def validStatuses : List String :=
  ["saved", "applied", "interviewing", "offered", "rejected"]

/-- The POST `/` request body. `title` and `company` are plain strings with `""`
standing for both an absent and an empty value (JS treats both as falsy). -/
structure CreateReq where
  jobId : Option String
  title : String
  company : String
  location : Option String
  jobType : Option String
  salary : Option String
  applyLink : Option String
  description : Option String
  status : Option String
deriving Repr, DecidableEq

/-- Outcome of the POST `/` handler. -/
inductive CreateResult
  | validationError
  | conflictError
  | created (id : String) (job : TrackedJob)
deriving Repr, DecidableEq

/-- The `trackedJob` object literal built by the create handler.  The
destructuring default `status = 'saved'` applies only to an absent field, so it is
`getD`, not `jsOr`. -/
def buildJob (userId : String) (req : CreateReq) (trackerId : String)
    (now : Nat) : TrackedJob :=
  { userId := userId
    jobId := jsOr req.jobId trackerId
    title := req.title
    company := req.company
    location := jsOr req.location "Remote"
    jobType := jsOr req.jobType "Full-time"
    salary := jsOrNull req.salary
    applyLink := jsOrNull req.applyLink
    description := jsOrNull req.description
    status := req.status.getD "saved"
    notes := []
    createdAt := now
    updatedAt := now }

/-- The POST `/` handler: require `title` and `company`, scan the whole store for a
record of the same user with the same supplied `jobId`, then build the record with
defaulted fields and insert it under the freshly generated `trackerId`. -/
def create (store : Store) (userId : String) (req : CreateReq) (trackerId : String)
    (now : Nat) : CreateResult × Store :=
  if req.title = "" ∨ req.company = "" then
    (.validationError, store)
  else if ∃ p ∈ store, p.2.userId = userId ∧ some p.2.jobId = req.jobId then
    (.conflictError, store)
  else
    (.created trackerId (buildJob userId req trackerId now),
     Store.set store trackerId (buildJob userId req trackerId now))

/-- Outcome of the PUT `/:trackerId` handler. -/
inductive UpdateResult
  | notFound
  | accessDenied
  | invalidStatus
  | updated (id : String) (job : TrackedJob)
deriving Repr, DecidableEq

/-- The status overwrite of the update handler: applied only when `status` is
truthy. -/
def applyStatus (job : TrackedJob) (status : Option String) : TrackedJob :=
  if truthy status then { job with status := status.getD "" } else job

/-- The note append of the update handler: one `{text, createdAt}` entry is pushed
only when `notes` is truthy. -/
def applyNotes (job : TrackedJob) (notes : Option String) (now : Nat) : TrackedJob :=
  if truthy notes then { job with notes := job.notes ++ [⟨notes.getD "", now⟩] }
  else job

/-- The record as mutated by a successful update call: optional status overwrite,
optional note append, unconditional `updatedAt` refresh. -/
def updatedJob (job : TrackedJob) (status notes : Option String)
    (now : Nat) : TrackedJob :=
  { applyNotes (applyStatus job status) notes now with updatedAt := now }

/-- The PUT `/:trackerId` handler: 404 when the id is unknown, 403 when the record
is not owned by the caller, 400 when a truthy `status` is outside the enum; then
overwrite `status` when truthy, append one note when `notes` is truthy, and refresh
`updatedAt` unconditionally. -/
def update (store : Store) (trackerId userId : String) (status notes : Option String)
    (now : Nat) : UpdateResult × Store :=
  match Store.find store trackerId with
  | none => (.notFound, store)
  | some job =>
    if job.userId ≠ userId then
      (.accessDenied, store)
    else if truthy status ∧ status.getD "" ∉ validStatuses then
      (.invalidStatus, store)
    else
      (.updated trackerId (updatedJob job status notes now),
       Store.set store trackerId (updatedJob job status notes now))

/-- Outcome of the DELETE `/:trackerId` handler. -/
inductive DeleteResult
  | notFound
  | accessDenied
  | deleted
deriving Repr, DecidableEq

/-- The DELETE `/:trackerId` handler: same existence and ownership checks as
update, then remove the entry from the store. -/
def deleteJob (store : Store) (trackerId userId : String) : DeleteResult × Store :=
  match Store.find store trackerId with
  | none => (.notFound, store)
  | some job =>
    if job.userId ≠ userId then
      (.accessDenied, store)
    else
      (.deleted, Store.del store trackerId)

/-- The GET `/` handler: keep the caller's records in insertion order, stable-sort
by `createdAt` descending, and return them with their count; the store is not
modified. -/
def listJobs (store : Store) (userId : String) :
    (List (String × TrackedJob) × Nat) × Store :=
  let userJobs := store.filter (fun p => p.2.userId == userId)
  let sorted := userJobs.mergeSort (fun a b => b.2.createdAt ≤ a.2.createdAt)
  ((sorted, sorted.length), store)

/-- One store operation, for stating invariants over operation sequences. -/
inductive Op
  | createOp (userId : String) (req : CreateReq) (trackerId : String) (now : Nat)
  | updateOp (trackerId userId : String) (status notes : Option String) (now : Nat)
  | deleteOp (trackerId userId : String)
deriving Repr

/-- The store reached after one operation. -/
def applyOp (s : Store) : Op → Store
  | .createOp u r t n => (create s u r t n).2
  | .updateOp t u st nt n => (update s t u st nt n).2
  | .deleteOp t u => (deleteJob s t u).2

/-- The store reached after a sequence of operations. -/
def runOps (s : Store) (ops : List Op) : Store :=
  ops.foldl applyOp s

/-- Every record in the store carries one of the five enumerated status values. -/
def storeOk (s : Store) : Prop :=
  ∀ p ∈ s, p.2.status ∈ validStatuses

/-- A create request whose supplied status (if any) is one of the five values. -/
def opStatusOk : Op → Prop
  | .createOp _ req _ _ => req.status = none ∨ req.status.getD "" ∈ validStatuses
  | .updateOp _ _ _ _ _ => True
  | .deleteOp _ _ => True

instance (op : Op) : Decidable (opStatusOk op) := by
  cases op <;> simp only [opStatusOk] <;> infer_instance

instance (s : Store) : Decidable (storeOk s) := by
  unfold storeOk
  infer_instance

/-- The record built by the create handler when only title and company are supplied. -/
def mkDefault (userId title company trackerId : String) (now : Nat) : TrackedJob :=
  ⟨userId, trackerId, title, company, "Remote", "Full-time", none, none, none, "saved",
    [], now, now⟩

/-- A saved record owned by user `u1` under external job id `job-9`, used as sample
data in witnesses and counterexamples. -/
def sampleJob : TrackedJob :=
  ⟨"u1", "job-9", "Dev", "Acme", "Remote", "Full-time", none, none, none, "saved", [], 0, 0⟩

/-! ### Store lemmas -/

theorem Store.find_eq_none_iff {s : Store} {id : String} :
    Store.find s id = none ↔ ∀ p ∈ s, p.1 ≠ id := by
  induction s with
  | nil => simp [Store.find]
  | cons p rest ih =>
    by_cases h : p.1 = id
    · simp [Store.find, h]
    · simp [Store.find, h, ih]

theorem Store.find_some_mem {s : Store} {id : String} {j : TrackedJob}
    (h : Store.find s id = some j) : (id, j) ∈ s := by
  induction s with
  | nil => simp [Store.find] at h
  | cons p rest ih =>
    by_cases hp : p.1 = id
    · rw [Store.find, if_pos hp] at h
      obtain rfl := Option.some.inj h
      exact List.mem_cons.mpr (Or.inl (by rw [← hp]))
    · rw [Store.find, if_neg hp] at h
      exact List.mem_cons_of_mem _ (ih h)

theorem Store.mem_set {s : Store} {id : String} {j : TrackedJob}
    {q : String × TrackedJob} (h : q ∈ Store.set s id j) : q = (id, j) ∨ q ∈ s := by
  induction s with
  | nil =>
    rw [Store.set, List.mem_singleton] at h
    exact Or.inl h
  | cons p rest ih =>
    by_cases hp : p.1 = id
    · rw [Store.set, if_pos hp] at h
      rcases List.mem_cons.mp h with h | h
      exacts [Or.inl h, Or.inr (List.mem_cons_of_mem _ h)]
    · rw [Store.set, if_neg hp] at h
      rcases List.mem_cons.mp h with h | h
      · exact Or.inr (List.mem_cons.mpr (Or.inl h))
      · rcases ih h with h' | h'
        exacts [Or.inl h', Or.inr (List.mem_cons_of_mem _ h')]

theorem Store.mem_del {s : Store} {id : String} {q : String × TrackedJob}
    (h : q ∈ Store.del s id) : q ∈ s := by
  induction s with
  | nil =>
    rw [Store.del] at h
    exact h
  | cons p rest ih =>
    by_cases hp : p.1 = id
    · rw [Store.del, if_pos hp] at h
      exact List.mem_cons_of_mem _ h
    · rw [Store.del, if_neg hp] at h
      rcases List.mem_cons.mp h with h | h
      · exact List.mem_cons.mpr (Or.inl h)
      · exact List.mem_cons_of_mem _ (ih h)

theorem Store.set_fresh {s : Store} {id : String} {j : TrackedJob}
    (h : ∀ p ∈ s, p.1 ≠ id) : Store.set s id j = s ++ [(id, j)] := by
  induction s with
  | nil => simp [Store.set]
  | cons p rest ih =>
    have hp : p.1 ≠ id := h p (by simp)
    rw [Store.set, if_neg hp, ih fun q hq => h q (List.mem_cons_of_mem _ hq)]
    simp

theorem Store.find_set_self (s : Store) (id : String) (j : TrackedJob) :
    Store.find (Store.set s id j) id = some j := by
  induction s with
  | nil => simp [Store.set, Store.find]
  | cons p rest ih =>
    by_cases hp : p.1 = id
    · simp [Store.set, hp, Store.find]
    · simp [Store.set, hp, Store.find, ih]

theorem Store.find_del_self {s : Store} {id : String}
    (h : (s.map Prod.fst).Nodup) : Store.find (Store.del s id) id = none := by
  induction s with
  | nil => simp [Store.del, Store.find]
  | cons p rest ih =>
    rw [List.map_cons, List.nodup_cons] at h
    by_cases hp : p.1 = id
    · rw [Store.del, if_pos hp]
      refine Store.find_eq_none_iff.mpr fun q hq hq1 => h.1 ?_
      rw [← hp] at hq1
      exact hq1 ▸ List.mem_map_of_mem Prod.fst hq
    · rw [Store.del, if_neg hp, Store.find, if_neg hp]
      exact ih h.2

/-! ### C6: create validation -/

/-- C6: Create fails with the 400 ValidationError whenever `title` or `company` is
missing or empty, and on that failure the store is completely unchanged. -/
theorem create_missing_required_fields (store : Store) (userId : String)
    (req : CreateReq) (trackerId : String) (now : Nat)
    (h : req.title = "" ∨ req.company = "") :
    create store userId req trackerId now = (.validationError, store) := by
  rw [create, if_pos h]

/-- C6 witness: creating with an empty title in an empty store. -/
theorem create_missing_required_fields_witness :
    create [] "u1" ⟨none, "", "Acme", none, none, none, none, none, none⟩ "t1" 0
      = (.validationError, []) :=
  create_missing_required_fields [] "u1"
    ⟨none, "", "Acme", none, none, none, none, none, none⟩ "t1" 0 (Or.inl rfl)

/-! ### C5: create defaults -/

/-- C5: a successful Create with only `title` and `company` supplied appends exactly
one record under the fresh tracker id, with `location="Remote"`,
`jobType="Full-time"`, `status="saved"`, empty notes, `jobId` equal to the tracker
id, `createdAt = updatedAt`, and returns the full record including its id. -/
theorem create_minimal_defaults (store : Store) (userId title company trackerId : String)
    (now : Nat) (ht : title ≠ "") (hc : company ≠ "")
    (hfresh : ∀ p ∈ store, p.1 ≠ trackerId) :
    create store userId ⟨none, title, company, none, none, none, none, none, none⟩
        trackerId now
      = (.created trackerId (mkDefault userId title company trackerId now),
         store ++ [(trackerId, mkDefault userId title company trackerId now)]) := by
  have hval : ¬ (title = "" ∨ company = "") := by
    rintro (h | h)
    exacts [ht h, hc h]
  have hconf : ¬ ∃ p ∈ store, p.2.userId = userId ∧ some p.2.jobId = (none : Option String) := by
    rintro ⟨p, _, _, hj⟩
    exact Option.noConfusion hj
  rw [create, if_neg hval, if_neg hconf, Store.set_fresh hfresh]
  rfl

/-- C5 witness: creating into the empty store. -/
theorem create_minimal_defaults_witness :
    create [] "u1" ⟨none, "Dev", "Acme", none, none, none, none, none, none⟩ "t1" 0
      = (.created "t1" (mkDefault "u1" "Dev" "Acme" "t1" 0),
         [("t1", mkDefault "u1" "Dev" "Acme" "t1" 0)]) :=
  create_minimal_defaults [] "u1" "Dev" "Acme" "t1" 0 (by decide) (by decide)
    (fun p hp => absurd hp (List.not_mem_nil p))

/-! ### C2: create conflict check -/

/-- C2 (amended): for a request with non-empty `title` and `company`, Create fails
with the ConflictError iff some record in the store has the caller's `userId` and
the supplied `jobId`; on that failure the store is unchanged; and when no `jobId`
is supplied the conflict check can never fire. -/
theorem create_conflict_characterization (store : Store) (userId : String)
    (req : CreateReq) (trackerId : String) (now : Nat)
    (ht : req.title ≠ "") (hc : req.company ≠ "") :
    ((create store userId req trackerId now).1 = .conflictError ↔
      ∃ p ∈ store, p.2.userId = userId ∧ some p.2.jobId = req.jobId)
    ∧ ((create store userId req trackerId now).1 = .conflictError →
      (create store userId req trackerId now).2 = store)
    ∧ (req.jobId = none → (create store userId req trackerId now).1 ≠ .conflictError) := by
  have hval : ¬ (req.title = "" ∨ req.company = "") := by
    rintro (h | h)
    exacts [ht h, hc h]
  by_cases hconf : ∃ p ∈ store, p.2.userId = userId ∧ some p.2.jobId = req.jobId
  · have hres : create store userId req trackerId now = (.conflictError, store) := by
      rw [create, if_neg hval, if_pos hconf]
    refine ⟨⟨fun _ => hconf, fun _ => by rw [hres]⟩, fun _ => by rw [hres], ?_⟩
    intro hnone
    obtain ⟨p, hp, hu, hj⟩ := hconf
    rw [hnone] at hj
    exact absurd hj (Option.some_ne_none _)
  · have hne : (create store userId req trackerId now).1 ≠ .conflictError := by
      rw [create, if_neg hval, if_neg hconf]
      simp
    exact ⟨⟨fun h => absurd h hne, fun h => absurd h hconf⟩, fun h => absurd h hne,
      fun _ => hne⟩

/-- C2 witness: a genuine duplicate `jobId` for the same user is reported as a
conflict and leaves the store unchanged. -/
theorem create_conflict_characterization_witness :
    ((create [("t1", sampleJob)] "u1"
        ⟨some "job-9", "Dev", "Acme", none, none, none, none, none, none⟩ "t2" 1).1
      = .conflictError ↔
      ∃ p ∈ [("t1", sampleJob)], p.2.userId = "u1" ∧ some p.2.jobId = some "job-9")
    ∧ ((create [("t1", sampleJob)] "u1"
        ⟨some "job-9", "Dev", "Acme", none, none, none, none, none, none⟩ "t2" 1).1
      = .conflictError →
      (create [("t1", sampleJob)] "u1"
        ⟨some "job-9", "Dev", "Acme", none, none, none, none, none, none⟩ "t2" 1).2
      = [("t1", sampleJob)])
    ∧ ((some "job-9" : Option String) = none →
      (create [("t1", sampleJob)] "u1"
        ⟨some "job-9", "Dev", "Acme", none, none, none, none, none, none⟩ "t2" 1).1
      ≠ .conflictError) :=
  create_conflict_characterization [("t1", sampleJob)] "u1"
    ⟨some "job-9", "Dev", "Acme", none, none, none, none, none, none⟩ "t2" 1
    (by decide) (by decide)

/-- C2 counterexample: with a conflicting record present but an empty `title`,
Create fails with the ValidationError instead of the ConflictError, so the claimed
equivalence does not hold at this input. -/
theorem create_conflict_iff_fails_without_title :
    ¬ (((create [("t1", sampleJob)] "u1"
          ⟨some "job-9", "", "Acme", none, none, none, none, none, none⟩ "t2" 1).1
        = CreateResult.conflictError) ↔
      ∃ p ∈ [("t1", sampleJob)], p.2.userId = "u1" ∧ some p.2.jobId = some "job-9") := by
  decide

/-! ### C3: update failure checks and their order -/

/-- C3 (amended): the update handler checks, in order, existence (404 when the
tracker id is unknown), then ownership (403 when the record's `userId` differs
from the caller), then — for a supplied non-empty `status` — enum validity (400),
leaving the store unchanged in every failure case. -/
theorem update_check_order (store : Store) (trackerId userId : String)
    (status notes : Option String) (now : Nat) :
    (Store.find store trackerId = none →
      update store trackerId userId status notes now = (.notFound, store))
    ∧ (∀ job, Store.find store trackerId = some job → job.userId ≠ userId →
      update store trackerId userId status notes now = (.accessDenied, store))
    ∧ (∀ job, Store.find store trackerId = some job → job.userId = userId →
      truthy status → status.getD "" ∉ validStatuses →
      update store trackerId userId status notes now = (.invalidStatus, store)) := by
  refine ⟨fun h => ?_, fun job hj hu => ?_, fun job hj hu hts hnv => ?_⟩
  · simp only [update, h]
  · simp only [update, hj]
    rw [if_pos hu]
  · simp only [update, hj]
    rw [if_neg (fun hne => hne hu), if_pos ⟨hts, hnv⟩]

/-- C3 witness: each of the three failure branches fires at a concrete input. -/
theorem update_check_order_witness :
    update [("t1", sampleJob)] "t9" "u1" none none 5 = (.notFound, [("t1", sampleJob)])
    ∧ update [("t1", sampleJob)] "t1" "u2" none none 5
      = (.accessDenied, [("t1", sampleJob)])
    ∧ update [("t1", sampleJob)] "t1" "u1" (some "bogus") none 5
      = (.invalidStatus, [("t1", sampleJob)]) :=
  ⟨(update_check_order [("t1", sampleJob)] "t9" "u1" none none 5).1 (by decide),
   (update_check_order [("t1", sampleJob)] "t1" "u2" none none 5).2.1 sampleJob
     (by decide) (by decide),
   (update_check_order [("t1", sampleJob)] "t1" "u1" (some "bogus") none 5).2.2 sampleJob
     (by decide) rfl (by decide) (by decide)⟩

/-- C3 counterexample: a supplied empty-string `status` is outside the enum, yet
the update succeeds instead of failing with the 400 ValidationError. -/
theorem update_accepts_empty_status_input :
    update [("t1", sampleJob)] "t1" "u1" (some "") none 5
      = (.updated "t1" { sampleJob with updatedAt := 5 },
         [("t1", { sampleJob with updatedAt := 5 })])
    ∧ ("" : String) ∉ validStatuses := by
  constructor
  · decide
  · decide

/-! ### C9: empty-string status on update -/

/-- C9: an Update on an owned, existing record that supplies `status` as the empty
string raises no error (the status check and the status overwrite both apply only
to a truthy status) and leaves the record's status unchanged. -/
theorem update_empty_status_succeeds (store : Store) (trackerId userId : String)
    (notes : Option String) (now : Nat) (job : TrackedJob)
    (hfind : Store.find store trackerId = some job) (hown : job.userId = userId) :
    update store trackerId userId (some "") notes now
      = (.updated trackerId (updatedJob job (some "") notes now),
         Store.set store trackerId (updatedJob job (some "") notes now))
    ∧ (updatedJob job (some "") notes now).status = job.status := by
  have hnt : ¬ truthy (some "") := fun h => h.2 rfl
  constructor
  · simp only [update, hfind]
    rw [if_neg (fun hne => hne hown), if_neg (fun hc => hnt hc.1)]
  · unfold updatedJob applyNotes applyStatus
    simp only [if_neg hnt]
    by_cases hn : truthy notes
    · rw [if_pos hn]
    · rw [if_neg hn]

/-- C9 witness: empty-string status on a concrete owned record. -/
theorem update_empty_status_succeeds_witness :
    update [("t1", sampleJob)] "t1" "u1" (some "") none 5
      = (.updated "t1" (updatedJob sampleJob (some "") none 5),
         Store.set [("t1", sampleJob)] "t1" (updatedJob sampleJob (some "") none 5))
    ∧ (updatedJob sampleJob (some "") none 5).status = sampleJob.status :=
  update_empty_status_succeeds [("t1", sampleJob)] "t1" "u1" none 5 sampleJob
    (by decide) rfl

/-! ### C4: update with no fields touches only updatedAt -/

/-- C4: a successful Update supplying neither `status` nor `notes` changes only
`updatedAt`: the result is the stored record with `updatedAt := now` and every
other field untouched, written back in place under the same tracker id. -/
theorem update_no_fields_frame (store : Store) (trackerId userId : String) (now : Nat)
    (job : TrackedJob) (hfind : Store.find store trackerId = some job)
    (hown : job.userId = userId) :
    update store trackerId userId none none now
      = (.updated trackerId { job with updatedAt := now },
         Store.set store trackerId { job with updatedAt := now }) := by
  have hnt : ¬ truthy (none : Option String) := fun h => h.1 rfl
  simp only [update, hfind]
  rw [if_neg (fun hne => hne hown), if_neg (fun hc => hnt hc.1)]
  unfold updatedJob applyNotes applyStatus
  simp only [if_neg hnt]

/-- C4 witness: a no-field update on a concrete owned record. -/
theorem update_no_fields_frame_witness :
    update [("t1", sampleJob)] "t1" "u1" none none 5
      = (.updated "t1" { sampleJob with updatedAt := 5 },
         Store.set [("t1", sampleJob)] "t1" { sampleJob with updatedAt := 5 }) :=
  update_no_fields_frame [("t1", sampleJob)] "t1" "u1" 5 sampleJob (by decide) rfl

/-! ### C7: list -/

/-- C7: List returns exactly the caller's records — a permutation of the
insertion-order filter of the store — sorted by `createdAt` descending, together
with their count, and leaves the store unchanged. -/
theorem listJobs_spec (store : Store) (userId : String) :
    ((listJobs store userId).1.1).Perm
      (store.filter (fun p => p.2.userId == userId))
    ∧ ((listJobs store userId).1.1).Pairwise
      (fun a b => b.2.createdAt ≤ a.2.createdAt)
    ∧ (listJobs store userId).1.2 = ((listJobs store userId).1.1).length
    ∧ (listJobs store userId).2 = store := by
  refine ⟨List.mergeSort_perm _ _, ?_, rfl, rfl⟩
  show (List.mergeSort (store.filter (fun p => p.2.userId == userId))
      (fun a b => decide (b.2.createdAt ≤ a.2.createdAt))).Pairwise
    (fun a b => b.2.createdAt ≤ a.2.createdAt)
  refine List.Pairwise.imp ?_ (List.sorted_mergeSort ?_ ?_
    (store.filter (fun p => p.2.userId == userId)))
  · intro a b hab
    exact of_decide_eq_true hab
  · intro a b c hab hbc
    rw [decide_eq_true_eq] at hab hbc ⊢
    omega
  · intro a b
    rw [Bool.or_eq_true, decide_eq_true_eq, decide_eq_true_eq]
    omega

/-! ### C8: delete -/

/-- C8: Delete applies the same existence (404) and ownership (403) checks as
Update, in the same order, and on success removes the record permanently: no
subsequent List (for any user) includes the tracker id, and a second Delete of the
same id fails with 404. -/
theorem delete_spec (store : Store) (trackerId userId : String)
    (hnodup : (store.map Prod.fst).Nodup) :
    (Store.find store trackerId = none →
      deleteJob store trackerId userId = (.notFound, store))
    ∧ (∀ job, Store.find store trackerId = some job → job.userId ≠ userId →
      deleteJob store trackerId userId = (.accessDenied, store))
    ∧ (∀ job, Store.find store trackerId = some job → job.userId = userId →
      (deleteJob store trackerId userId).1 = .deleted
      ∧ Store.find (deleteJob store trackerId userId).2 trackerId = none
      ∧ (∀ u q, q ∈ (listJobs (deleteJob store trackerId userId).2 u).1.1 →
          q.1 ≠ trackerId)
      ∧ (∀ userId2,
          (deleteJob (deleteJob store trackerId userId).2 trackerId userId2).1
            = .notFound)) := by
  refine ⟨fun h => ?_, fun job hj hu => ?_, fun job hj hu => ?_⟩
  · simp only [deleteJob, h]
  · simp only [deleteJob, hj]
    rw [if_pos hu]
  · have hres : deleteJob store trackerId userId
        = (.deleted, Store.del store trackerId) := by
      simp only [deleteJob, hj]
      rw [if_neg (fun hne => hne hu)]
    rw [hres]
    have hfindnone : Store.find (Store.del store trackerId) trackerId = none :=
      Store.find_del_self hnodup
    refine ⟨rfl, hfindnone, ?_, ?_⟩
    · intro u q hq
      have hq' : q ∈ List.mergeSort
          ((Store.del store trackerId).filter (fun p => p.2.userId == u))
          (fun a b => decide (b.2.createdAt ≤ a.2.createdAt)) := hq
      have hq2 : q ∈ Store.del store trackerId :=
        List.mem_of_mem_filter (List.mem_mergeSort.mp hq')
      exact Store.find_eq_none_iff.mp hfindnone q hq2
    · intro userId2
      simp only [deleteJob, hfindnone]

/-- C8 witness: deleting a concrete owned record succeeds. -/
theorem delete_spec_witness :
    (deleteJob [("t1", sampleJob)] "t1" "u1").1 = .deleted :=
  ((delete_spec [("t1", sampleJob)] "t1" "u1" (by decide)).2.2 sampleJob (by decide)
    rfl).1

/-! ### C10: falsy jobId defaults to the tracker id -/

/-- C10: Create defaults `jobId` to the generated tracker id for every falsy
supplied value — absent or empty string alike — so such a call with valid required
fields and no colliding record succeeds and stores `jobId` equal to the fresh
tracker id. -/
theorem create_falsy_jobId_defaults (store : Store) (userId : String) (req : CreateReq)
    (trackerId : String) (now : Nat) (ht : req.title ≠ "") (hc : req.company ≠ "")
    (hfalsy : req.jobId = none ∨ req.jobId = some "")
    (hnoconf : ∀ p ∈ store, ¬ (p.2.userId = userId ∧ some p.2.jobId = req.jobId)) :
    (create store userId req trackerId now).1
      = .created trackerId (buildJob userId req trackerId now)
    ∧ (buildJob userId req trackerId now).jobId = trackerId
    ∧ Store.find (create store userId req trackerId now).2 trackerId
      = some (buildJob userId req trackerId now) := by
  have hval : ¬ (req.title = "" ∨ req.company = "") := by
    rintro (h | h)
    exacts [ht h, hc h]
  have hconf : ¬ ∃ p ∈ store, p.2.userId = userId ∧ some p.2.jobId = req.jobId := by
    rintro ⟨p, hp, hcon⟩
    exact hnoconf p hp hcon
  have hres : create store userId req trackerId now
      = (.created trackerId (buildJob userId req trackerId now),
         Store.set store trackerId (buildJob userId req trackerId now)) := by
    rw [create, if_neg hval, if_neg hconf]
  refine ⟨by rw [hres], ?_, by rw [hres]; exact Store.find_set_self _ _ _⟩
  show jsOr req.jobId trackerId = trackerId
  rcases hfalsy with h | h <;> simp [h, jsOr]

/-- C10 witness: an explicit empty-string `jobId` is stored as the fresh tracker
id. -/
theorem create_falsy_jobId_defaults_witness :
    (create [] "u1" ⟨some "", "Dev", "Acme", none, none, none, none, none, none⟩
        "t1" 0).1
      = .created "t1"
        (buildJob "u1" ⟨some "", "Dev", "Acme", none, none, none, none, none, none⟩
          "t1" 0)
    ∧ (buildJob "u1" ⟨some "", "Dev", "Acme", none, none, none, none, none, none⟩
        "t1" 0).jobId = "t1"
    ∧ Store.find (create [] "u1"
        ⟨some "", "Dev", "Acme", none, none, none, none, none, none⟩ "t1" 0).2 "t1"
      = some (buildJob "u1"
          ⟨some "", "Dev", "Acme", none, none, none, none, none, none⟩ "t1" 0) :=
  create_falsy_jobId_defaults [] "u1"
    ⟨some "", "Dev", "Acme", none, none, none, none, none, none⟩ "t1" 0
    (by decide) (by decide) (Or.inr rfl) (fun p hp => absurd hp (List.not_mem_nil p))

/-! ### C1: the status enum invariant -/

/-- C1 counterexample: a single Create supplying a status of "bogus" puts a record
in the store whose status is outside the five enumerated values, so the invariant
fails over unrestricted Create calls. -/
theorem create_accepts_arbitrary_status :
    ¬ storeOk (runOps [] [Op.createOp "u1"
      ⟨none, "Dev", "Acme", none, none, none, none, none, some "bogus"⟩ "t1" 0]) := by
  decide

theorem storeOk_create {s : Store} {u : String} {r : CreateReq} {t : String} {n : Nat}
    (hs : storeOk s) (hr : r.status = none ∨ r.status.getD "" ∈ validStatuses) :
    storeOk (create s u r t n).2 := by
  rw [create]
  by_cases h1 : r.title = "" ∨ r.company = ""
  · rw [if_pos h1]
    exact hs
  · rw [if_neg h1]
    by_cases h2 : ∃ p ∈ s, p.2.userId = u ∧ some p.2.jobId = r.jobId
    · rw [if_pos h2]
      exact hs
    · rw [if_neg h2]
      intro p hp
      rcases Store.mem_set hp with rfl | hp'
      · show r.status.getD "saved" ∈ validStatuses
        cases hst : r.status with
        | none => decide
        | some x =>
          rcases hr with h | h
          · rw [hst] at h
            exact Option.noConfusion h
          · rw [hst] at h
            simpa using h
      · exact hs p hp'

theorem storeOk_update {s : Store} {t u : String} {st nt : Option String} {n : Nat}
    (hs : storeOk s) : storeOk (update s t u st nt n).2 := by
  cases hfind : Store.find s t with
  | none =>
    simp only [update, hfind]
    exact hs
  | some job =>
    simp only [update, hfind]
    by_cases h1 : job.userId ≠ u
    · rw [if_pos h1]
      exact hs
    · rw [if_neg h1]
      by_cases h2 : truthy st ∧ st.getD "" ∉ validStatuses
      · rw [if_pos h2]
        exact hs
      · rw [if_neg h2]
        intro p hp
        rcases Store.mem_set hp with rfl | hp'
        · show (updatedJob job st nt n).status ∈ validStatuses
          have hjob : job.status ∈ validStatuses := hs _ (Store.find_some_mem hfind)
          have hstat : (updatedJob job st nt n).status
              = if truthy st then st.getD "" else job.status := by
            unfold updatedJob applyNotes applyStatus
            by_cases hnt1 : truthy nt <;> by_cases hst1 : truthy st <;>
              simp [hnt1, hst1]
          rw [hstat]
          by_cases hst1 : truthy st
          · rw [if_pos hst1]
            by_contra hnv
            exact h2 ⟨hst1, hnv⟩
          · rw [if_neg hst1]
            exact hjob
        · exact hs p hp'

theorem storeOk_delete {s : Store} {t u : String} (hs : storeOk s) :
    storeOk (deleteJob s t u).2 := by
  cases hfind : Store.find s t with
  | none =>
    simp only [deleteJob, hfind]
    exact hs
  | some job =>
    simp only [deleteJob, hfind]
    by_cases h1 : job.userId ≠ u
    · rw [if_pos h1]
      exact hs
    · rw [if_neg h1]
      intro p hp
      exact hs p (Store.mem_del hp)

/-- C1 (amended): starting from a store whose records all carry one of the five
enumerated status values, every sequence of Create, Update and Delete operations
in which each Create supplies either no status or one of the five values keeps the
status of every record in the store among the five enumerated values. -/
theorem status_invariant_preserved (s : Store) (ops : List Op) (hs : storeOk s)
    (hops : ∀ op ∈ ops, opStatusOk op) : storeOk (runOps s ops) := by
  induction ops generalizing s with
  | nil => exact hs
  | cons op rest ih =>
    refine ih (applyOp s op) ?_ (fun o ho => hops o (List.mem_cons_of_mem _ ho))
    have hop := hops op (List.mem_cons_self _ _)
    cases op with
    | createOp u r t n => exact storeOk_create hs hop
    | updateOp t u st nt n => exact storeOk_update hs
    | deleteOp t u => exact storeOk_delete hs

/-- C1 witness: a concrete create-update-delete sequence with valid statuses. -/
theorem status_invariant_preserved_witness :
    storeOk (runOps [] [Op.createOp "u1"
        ⟨none, "Dev", "Acme", none, none, none, none, none, none⟩ "t1" 0,
      Op.updateOp "t1" "u1" (some "applied") (some "called recruiter") 1,
      Op.deleteOp "t1" "u1"]) :=
  status_invariant_preserved []
    [Op.createOp "u1" ⟨none, "Dev", "Acme", none, none, none, none, none, none⟩ "t1" 0,
      Op.updateOp "t1" "u1" (some "applied") (some "called recruiter") 1,
      Op.deleteOp "t1" "u1"]
    (by decide) (by decide)
